import Mathlib

/-!
Verification development for the trussworks/sesh session-management library.

The repository contains two overlapping implementations of the session
lifecycle:

* the `domain.SessionService` pipeline: `pkg/session/session.go`
  (`Service.UserDidAuthenticate`, `GetSessionIfValid`, `UserDidLogout`)
  running against the SQL-backed store `pkg/dbstore` (`CreateSession`,
  `FetchPossiblyExpiredSession`, `DeleteSession`, `ExtendAndFetchSession`)
  and the HTTP middleware `pkg/seshttp/middleware.go`;
* the scs-backed `UserSessions` implementation in the top-level `sesh.go`
  (`UserDidAuthenticate`, `ProtectedMiddleware`, `UserDidLogout`).

Both are embedded shallowly below.  Database rows become a list of
`Session` records (the migration declares `session_key` as PRIMARY KEY and
`account_id` as UNIQUE, captured by `StoreInv`).  Timestamps become `Int`
(the configured timeout may be negative: the test-suite runs with
`timeout = -5s`).  Calls on external collaborators (the scs session
manager, the user delegate) are embedded by passing their observable
outcomes in explicitly (`ScsBehavior`), matching the Go interfaces.
Every store call and every emitted log line is recorded in an event trace
(`Ev`) so that ordering and logging claims can be stated.

The source's `hashSessionKey` computes the first 12 hex characters of a
SHA-512 digest; the claims below depend only on *which* strings are passed
through the hash and where the result is logged, so the hash is threaded
through the models as an explicit function parameter `hf`.
-/

namespace Sesh

/-- A row of the `sessions` table (`pkg/domain/session.go`): account id,
session key and absolute expiration date (modelled as an integer instant). -/
structure Session where
  accountID : String
  sessionKey : String
  expirationDate : Int
deriving DecidableEq, Repr

/-- Go error values that the embedded code can produce: `sql.ErrNoRows`,
`ErrValidSessionNotFound`, `ErrSessionExpired`, `ErrEmptySessionID`,
wrapped errors built with `fmt.Errorf("...: %w", err)`, and other opaque
errors. -/
inductive GoErr where
  | sqlNoRows
  | validSessionNotFound
  | sessionExpired
  | emptySessionID
  | wrapped (msg : String) (cause : GoErr)
  | other (msg : String)
deriving DecidableEq, Repr

/-- Observable events of a run: store operations, scs operations, user
delegate calls, and structured log lines (`Info` / `WarnError`). -/
inductive Ev where
  | opGenKey (key : String)
  | opFetch (accountID : String)
  | opDelete (key : String)
  | opCreate (accountID key : String)
  | opExtend (key : String)
  | info (msg : String) (fields : List (String × String))
  | warn (msg : String) (fields : List (String × String))
  | opRenew
  | opCommit
  | opPut (k v : String)
  | opFind (id : String)
  | opScsDelete (id : String)
  | opUpdateUser (userID sessionID : String)
deriving DecidableEq, Repr

/-- The fields of a logged event (empty for non-log events). -/
def evFields : Ev → List (String × String)
  | .info _ fs => fs
  | .warn _ fs => fs
  | _ => []

/-- Whether `e` is an `Info` log line with message `msg`. -/
def isInfoWith (msg : String) (e : Ev) : Bool :=
  match e with
  | .info m _ => m == msg
  | _ => false

/-- Whether a logged event has some field whose value is the string `v`. -/
def hasFieldValue (v : String) (e : Ev) : Bool :=
  (evFields e).any (fun p => p.2 == v)

namespace Domain

/-- Log message `domain.SessionExpired`. -/
def SessionExpired : String := "Auth failed because of an expired session"

/-- Log message `domain.SessionDoesNotExist`. -/
def SessionDoesNotExist : String := "Auth failed because of an invalid session"

/-- Log message `domain.SessionUnexpectedError`. -/
def SessionUnexpectedError : String :=
  "An unexpected error occurred while checking the session."

/-- Log message `domain.RequestIsMissingSessionCookie`. -/
def RequestIsMissingSessionCookie : String :=
  "Unauthorized: Request is missing a session cookie"

/-- Log message `domain.SessionCreated`. -/
def SessionCreated : String := "New Session Created"

/-- Log message `domain.SessionDestroyed`. -/
def SessionDestroyed : String := "Session Was Destroyed"

/-- Log message `domain.SessionConcurrentLogin`. -/
def SessionConcurrentLogin : String :=
  "User logged in again with a concurrent active session"

/-- The `fmt.Sprintf` message logged by `UserDidAuthenticate` when the
extant session is already expired (the `%s`-formatted expiration date is
rendered with `toString`). -/
def prevExpiredMsg (expirationDate : Int) : String :=
  "Creating new Session: Previous session expired at " ++ toString expirationDate

/-- The `WarnError` message used when deleting a displaced session fails
(the source uses the same string in the expired and the concurrent
branches). -/
def DeleteDisplacedFailed : String :=
  "Unexpectedly failed to delete an expired session during authentication"

end Domain

/-- The session store state: the rows of the `sessions` table. -/
abbrev Store := List Session

/-- The schema invariant of the `sessions` table
(`migrations/create_sessions_table.sql`): `session_key` is the PRIMARY KEY
and `account_id` is UNIQUE, so all rows have pairwise distinct keys and
pairwise distinct account ids. -/
def StoreInv (rows : Store) : Prop :=
  rows.Pairwise (fun a b => a.accountID ≠ b.accountID ∧ a.sessionKey ≠ b.sessionKey)

namespace DBStore

/-- `dbstore.CreateSession`: `INSERT INTO sessions ...` with
`expiration_date = now + expirationDuration`.  The insert errors exactly
when a constraint would be violated (duplicate `session_key` or duplicate
`account_id`). -/
def createSession (now : Int) (accountID sessionKey : String) (timeout : Int)
    (rows : Store) : Except GoErr Unit × Store :=
  if rows.any (fun r => r.sessionKey == sessionKey || r.accountID == accountID) then
    (.error (.other "Unexpectedly failed to create a session"), rows)
  else
    (.ok (), rows ++ [⟨accountID, sessionKey, now + timeout⟩])

/-- `dbstore.FetchPossiblyExpiredSession`: `SELECT * FROM sessions WHERE
account_id = $1`, returning `sql.ErrNoRows` when no row matches. -/
def fetchPossiblyExpiredSession (_now : Int) (accountID : String) (rows : Store) :
    Except GoErr Session × Store :=
  match rows.find? (fun r => r.accountID == accountID) with
  | some s => (.ok s, rows)
  | none => (.error .sqlNoRows, rows)

/-- `dbstore.DeleteSession`: `DELETE FROM sessions WHERE session_key = $1`;
when zero rows are affected it returns `ErrValidSessionNotFound`. -/
def deleteSession (_now : Int) (sessionKey : String) (rows : Store) :
    Except GoErr Unit × Store :=
  if rows.any (fun r => r.sessionKey == sessionKey) then
    (.ok (), rows.filter (fun r => r.sessionKey != sessionKey))
  else
    (.error .validSessionNotFound, rows)

/-- `dbstore.ExtendAndFetchSession`: the conditional
`UPDATE sessions SET expiration_date = now + timeout WHERE session_key = $2
AND expiration_date > now RETURNING ...`; when it affects no row, a
secondary `SELECT` by key disambiguates `ErrSessionExpired` (row present)
from `ErrValidSessionNotFound` (row absent). -/
def extendAndFetchSession (now : Int) (sessionKey : String) (timeout : Int)
    (rows : Store) : Except GoErr Session × Store :=
  match rows.find? (fun r => r.sessionKey == sessionKey && decide (now < r.expirationDate)) with
  | some r =>
    (.ok { r with expirationDate := now + timeout },
     rows.map (fun q =>
       if q.sessionKey == sessionKey && decide (now < q.expirationDate) then
         { q with expirationDate := now + timeout }
       else q))
  | none =>
    match rows.find? (fun r => r.sessionKey == sessionKey) with
    | some _ => (.error .sessionExpired, rows)
    | none => (.error .validSessionNotFound, rows)

end DBStore

/-- The `sesh.SessionStorageService` interface consumed by
`session.Service`, over an abstract store state `σ`.  Each operation takes
the current instant explicitly (the Go methods call `time.Now()`
internally). -/
structure StorageService (σ : Type) where
  fetchPossiblyExpiredSession : Int → String → σ → Except GoErr Session × σ
  createSession : Int → String → String → Int → σ → Except GoErr Unit × σ
  deleteSession : Int → String → σ → Except GoErr Unit × σ
  extendAndFetchSession : Int → String → Int → σ → Except GoErr Session × σ

/-- The concrete `dbstore.DBStore` instance of the storage interface. -/
def dbStorage : StorageService Store :=
  { fetchPossiblyExpiredSession := DBStore.fetchPossiblyExpiredSession
    createSession := fun now acct key t rows => DBStore.createSession now acct key t rows
    deleteSession := DBStore.deleteSession
    extendAndFetchSession := DBStore.extendAndFetchSession }

namespace SessionSvc

/-- The tail of `Service.UserDidAuthenticate`: `s.store.CreateSession(...)`
followed (on success) by logging the `SessionCreated` event with the
hashed new key and returning the key. -/
def finishCreate {σ : Type} (S : StorageService σ) (hf : String → String)
    (timeout now : Int) (sessionKey accountID : String) (st : σ) (evs : List Ev) :
    Except GoErr String × σ × List Ev :=
  let c := S.createSession now accountID sessionKey timeout st
  let evs1 := evs ++ [Ev.opCreate accountID sessionKey]
  match c.1 with
  | .error e => (.error e, c.2, evs1)
  | .ok _ =>
    (.ok sessionKey, c.2,
     evs1 ++ [Ev.info Domain.SessionCreated [("session_hash", hf sessionKey)]])

/-- The displacement delete inside `Service.UserDidAuthenticate`:
`s.store.DeleteSession(extantSession.SessionKey)`; a failure is logged
with `WarnError` and swallowed (the flow continues either way). -/
def deleteDisplaced {σ : Type} (S : StorageService σ) (now : Int)
    (oldKey accountID : String) (st : σ) (evs : List Ev) : σ × List Ev :=
  let d := S.deleteSession now oldKey st
  let evs1 := evs ++ [Ev.opDelete oldKey]
  match d.1 with
  | .error _ =>
    (d.2, evs1 ++ [Ev.warn Domain.DeleteDisplacedFailed [("account_id", accountID)]])
  | .ok _ => (d.2, evs1)

/-- `session.Service.UserDidAuthenticate` (`pkg/session/session.go`):
generate a key, fetch any extant session for the account (tolerating
`sql.ErrNoRows`), log and best-effort-delete it (with the
previous-session-expired message when it is already expired, otherwise
the concurrent-login message with the hashed old key), then create the
new session and log `SessionCreated`.  The freshly generated random key
is passed in as `sessionKey`. -/
def userDidAuthenticate {σ : Type} (S : StorageService σ) (hf : String → String)
    (timeout now : Int) (sessionKey accountID : String) (st : σ) :
    Except GoErr String × σ × List Ev :=
  let evs0 := [Ev.opGenKey sessionKey]
  let f := S.fetchPossiblyExpiredSession now accountID st
  let evs1 := evs0 ++ [Ev.opFetch accountID]
  match f.1 with
  | .error e =>
    if e = GoErr.sqlNoRows then
      finishCreate S hf timeout now sessionKey accountID f.2 evs1
    else
      (.error e, f.2, evs1)
  | .ok extant =>
    if extant.expirationDate < now then
      let evs2 := evs1 ++
        [Ev.info (Domain.prevExpiredMsg extant.expirationDate) [("account_id", accountID)]]
      let d := deleteDisplaced S now extant.sessionKey accountID f.2 evs2
      finishCreate S hf timeout now sessionKey accountID d.1 d.2
    else
      let evs2 := evs1 ++
        [Ev.info Domain.SessionConcurrentLogin [("prev_session_hash", hf extant.sessionKey)]]
      let d := deleteDisplaced S now extant.sessionKey accountID f.2 evs2
      finishCreate S hf timeout now sessionKey accountID d.1 d.2

/-- `session.Service.GetSessionIfValid`: call `ExtendAndFetchSession`,
log `SessionExpired` / `SessionDoesNotExist` with the hashed key on the
two recognised failures, and pass the result through. -/
def getSessionIfValid {σ : Type} (S : StorageService σ) (hf : String → String)
    (timeout now : Int) (sessionKey : String) (st : σ) :
    Except GoErr Session × σ × List Ev :=
  let f := S.extendAndFetchSession now sessionKey timeout st
  let evs0 := [Ev.opExtend sessionKey]
  match f.1 with
  | .error e =>
    if e = GoErr.sessionExpired then
      (.error e, f.2,
       evs0 ++ [Ev.info Domain.SessionExpired [("session_hash", hf sessionKey)]])
    else if e = GoErr.validSessionNotFound then
      (.error e, f.2,
       evs0 ++ [Ev.info Domain.SessionDoesNotExist [("session_hash", hf sessionKey)]])
    else
      (.error e, f.2, evs0)
  | .ok s => (.ok s, f.2, evs0)

/-- `session.Service.UserDidLogout`: delete the session (propagating any
failure, including the zero-rows `ErrValidSessionNotFound`), then log
`SessionDestroyed` with the hashed key. -/
def userDidLogout {σ : Type} (S : StorageService σ) (hf : String → String)
    (now : Int) (sessionKey : String) (st : σ) :
    Except GoErr Unit × σ × List Ev :=
  let d := S.deleteSession now sessionKey st
  let evs0 := [Ev.opDelete sessionKey]
  match d.1 with
  | .error e => (.error e, d.2, evs0)
  | .ok _ =>
    (.ok (), d.2,
     evs0 ++ [Ev.info Domain.SessionDestroyed [("session_hash", hf sessionKey)]])

end SessionSvc

/-- The sessions that are valid (not yet expired) for `accountID` at the
instant `now`: rows with that account id and `now < expirationDate`. -/
def validSessionsFor (accountID : String) (now : Int) (rows : Store) : List Session :=
  rows.filter (fun r => r.accountID == accountID && decide (now < r.expirationDate))

/-- Run a sequence of `UserDidAuthenticate` calls for one account against
the db-backed store, recording for each call its instant, its result and
the store state after it. -/
def authRuns (hf : String → String) (timeout : Int) (accountID : String) :
    List (Int × String) → Store → List (Int × Except GoErr String × Store)
  | [], _ => []
  | c :: rest, st =>
    let r := SessionSvc.userDidAuthenticate dbStorage hf timeout c.1 c.2 accountID st
    (c.1, r.1, r.2.1) :: authRuns hf timeout accountID rest r.2.1

deriving instance DecidableEq for Except

namespace Scs

/-- Log messages of the scs-backed `UserSessions` implementation
(top-level `sesh.go`). -/
def sessionCreatedMessage : String := "New User Session Created"

/-- `sessionDeletedMessage` in `sesh.go`. -/
def sessionDeletedMessage : String := "User Session Destroyed"

/-- `expiredLoginMessage` in `sesh.go`. -/
def expiredLoginMessage : String := "Previous session expired"

/-- `concurrentLoginMessage` in `sesh.go`. -/
def concurrentLoginMessage : String := "User logged in with a concurrent active session"

/-- The session-data key `userIDKey` in `sesh.go`. -/
def userIDKey : String := "sesh-user-id"

/-- The session-data key `seshIDKey` in `sesh.go`. -/
def seshIDKey : String := "sesh-sesh-id"

/-- The observable outcomes of the external collaborators consumed by one
`UserSessions.UserDidAuthenticate` call: the scs manager
(`RenewToken`, `Commit`, `Store.Find`, `Store.Delete`) and the
user-delegate pointer update (`UpdateUser`).  `commitRes` carries the
session id that `Commit` returns; `findRes` carries the `exists` flag of
`Store.Find`. -/
structure ScsBehavior where
  renewErr : Option GoErr
  commitRes : Except GoErr String
  findRes : Except GoErr Bool
  deleteErr : Option GoErr
  updateErr : Option GoErr
deriving DecidableEq, Repr

/-- The tail of `UserSessions.UserDidAuthenticate`: save the new session
id on the user via the delegate (`UpdateUser`), then log the
session-created event with the hashed session id. -/
def finishAuth (b : ScsBehavior) (hf : String → String)
    (userID sessionID : String) (evs : List Ev) : Except GoErr Unit × List Ev :=
  let evs1 := evs ++ [Ev.opUpdateUser userID sessionID]
  match b.updateErr with
  | some e => (.error (.wrapped "Error in user update delegate" e), evs1)
  | none =>
    (.ok (),
     evs1 ++ [Ev.info sessionCreatedMessage [("session_id_hash", hf sessionID)]])

/-- `UserSessions.UserDidAuthenticate` (top-level `sesh.go`): reject an
empty user id, renew the scs token, put the user id into the session,
commit the new session (obtaining its id), record the id in the session,
then — if the user carries a current session id — look the old session up
and either log the expired-login event (absent) or log the
concurrent-login event and delete it (present; a delete failure aborts
the call), and finally update the user pointer and log creation. -/
def userDidAuthenticate (b : ScsBehavior) (hf : String → String)
    (userID currentSessionID : String) : Except GoErr Unit × List Ev :=
  if userID = "" then (.error .emptySessionID, [])
  else
    let evs1 := [Ev.opRenew]
    match b.renewErr with
    | some e => (.error (.wrapped "Failed to renew the token for login" e), evs1)
    | none =>
      let evs2 := evs1 ++ [Ev.opPut userIDKey userID]
      match b.commitRes with
      | .error e =>
        (.error (.wrapped "Failed to write new user session to store" e),
         evs2 ++ [Ev.opCommit])
      | .ok sessionID =>
        let evs3 := evs2 ++ [Ev.opCommit, Ev.opPut seshIDKey sessionID]
        if currentSessionID = "" then
          finishAuth b hf userID sessionID evs3
        else
          let evs4 := evs3 ++ [Ev.opFind currentSessionID]
          match b.findRes with
          | .error e => (.error (.wrapped "Error loading previous session" e), evs4)
          | .ok found =>
            if found then
              let evs5 := evs4 ++
                [Ev.info concurrentLoginMessage
                  [("session_id_hash", hf currentSessionID)],
                 Ev.opScsDelete currentSessionID]
              match b.deleteErr with
              | some e =>
                (.error (.wrapped "Error deleting a previous session on login" e), evs5)
              | none => finishAuth b hf userID sessionID evs5
            else
              let evs5 := evs4 ++
                [Ev.info expiredLoginMessage
                  [("session_id_hash", hf currentSessionID)]]
              finishAuth b hf userID sessionID evs5

end Scs

namespace Seshttp

/-- What the middleware does with a request: respond itself with an error
body and status (the wrapped handler never runs), or invoke the next
handler with the validated session attached to the context. -/
inductive Outcome where
  | respond (message : String) (status : Nat)
  | next (s : Session)
deriving DecidableEq, Repr

/-- `http.StatusText(http.StatusInternalServerError)`. -/
def internalServerErrorText : String := "Internal Server Error"

/-- `seshttp.SessionMiddleware.Middleware` (`pkg/seshttp/middleware.go`):
no cookie ⟹ 401 with the missing-cookie message; validation failing with
`ErrValidSessionNotFound` ⟹ 401 with the does-not-exist message; with
`ErrSessionExpired` ⟹ 401 with the expired message; any other error ⟹
500; success ⟹ run the next handler with the session in the context.
`RespondWithStructuredError` wraps the message into a JSON error body, so
the body is determined by the message; the model records the message and
status.  `validate` is the `GetSessionIfValid` result for the cookie
value. -/
def middleware (validate : String → Except GoErr Session) (cookie : Option String) :
    Outcome × List Ev :=
  match cookie with
  | none =>
    (.respond Domain.RequestIsMissingSessionCookie 401,
     [Ev.warn Domain.RequestIsMissingSessionCookie []])
  | some key =>
    match validate key with
    | .error .validSessionNotFound =>
      (.respond Domain.SessionDoesNotExist 401,
       [Ev.warn Domain.SessionDoesNotExist []])
    | .error .sessionExpired =>
      (.respond Domain.SessionExpired 401,
       [Ev.warn Domain.SessionExpired []])
    | .error _ =>
      (.respond internalServerErrorText 500,
       [Ev.warn Domain.SessionUnexpectedError []])
    | .ok s => (.next s, [])

/-- A request context holding values keyed by strings, as used by
`seshttp`'s context storage. -/
abbrev Context := List (String × Session)

/-- `seshttp.SetSessionInContext`: store the session under the context key
used by the middleware. -/
def SetSessionInContext (ctx : Context) (s : Session) : Context :=
  ("SESSION", s) :: ctx

end Seshttp

/-- The result of evaluating a Go function that can panic. -/
inductive GoOutcome (α : Type) where
  | ok (a : α)
  | panicked (code : Nat)
deriving DecidableEq, Repr

namespace SeshPkg

/-- The package-level `sesh.SessionFromContext` declared alongside
`SeshService` in the top-level `sesh.go`: its body is `panic(99)`; the
context argument is never examined. -/
def SessionFromContext (_ctx : Seshttp.Context) : GoOutcome Session :=
  .panicked 99

end SeshPkg

end Sesh

open Sesh

/-- Claim C10: the package-level `sesh.SessionFromContext` declared alongside
`SeshService` panics unconditionally — its body is `panic(99)` — and never
returns a `Session`, even when the session was placed in the context by the
middleware's `SetSessionInContext`. -/
theorem sessionFromContext_panics_unconditionally :
    (∀ ctx : Seshttp.Context, SeshPkg.SessionFromContext ctx = .panicked 99) ∧
    (∀ (ctx : Seshttp.Context) (s : Session),
      SeshPkg.SessionFromContext (Seshttp.SetSessionInContext ctx s) ≠ .ok s) := by
  constructor
  · intro ctx
    rfl
  · intro ctx s h
    exact GoOutcome.noConfusion h

/-- Claim C7 (counterexample): `session.Service.UserDidAuthenticate` has no
empty-identifier guard.  Called with the empty account id it performs store
I/O — it fetches, creates a session row for the empty account and returns the
key successfully — instead of rejecting with `ErrEmptySessionID`. -/
theorem service_auth_empty_account_performs_io :
    (SessionSvc.userDidAuthenticate dbStorage (fun s => "h:" ++ s) 5 0 "k1" ""
        ([] : Store)).1 = .ok "k1" ∧
    (SessionSvc.userDidAuthenticate dbStorage (fun s => "h:" ++ s) 5 0 "k1" ""
        ([] : Store)).2.1 = [⟨"", "k1", 5⟩] ∧
    Ev.opFetch "" ∈ (SessionSvc.userDidAuthenticate dbStorage (fun s => "h:" ++ s) 5 0 "k1" ""
        ([] : Store)).2.2 ∧
    Ev.opCreate "" "k1" ∈ (SessionSvc.userDidAuthenticate dbStorage (fun s => "h:" ++ s) 5 0 "k1" ""
        ([] : Store)).2.2 := by
  refine ⟨rfl, rfl, ?_, ?_⟩ <;> decide

/-- Claim C7 (amended): the empty-subject guard lives in the scs-backed
`UserSessions.UserDidAuthenticate` only: an empty user id is rejected with
`ErrEmptySessionID` before any I/O — the event trace is empty, so no token
renewal, commit, lookup, delete or delegate call happens. -/
theorem scs_auth_rejects_empty_user_before_io (b : Scs.ScsBehavior)
    (hf : String → String) (currentSessionID : String) :
    Scs.userDidAuthenticate b hf "" currentSessionID = (.error .emptySessionID, []) := by
  rfl

/-- Claim C4 (counterexample): in the scs-backed `UserSessions`
implementation a successful `UserDidAuthenticate` call commits the new
session (`scs.Commit`, trace index 2) strictly before it inspects the
account's existing session (`Store.Find`, trace index 4) — so the new
session is committed before the existing session is inspected and
displaced, contradicting the claimed strict order. -/
theorem scs_commit_before_inspect_counterexample :
    (Scs.userDidAuthenticate ⟨none, .ok "sid2", .ok true, none, none⟩
        (fun s => "h:" ++ s) "u1" "oldsid").1 = .ok () ∧
    (Scs.userDidAuthenticate ⟨none, .ok "sid2", .ok true, none, none⟩
        (fun s => "h:" ++ s) "u1" "oldsid").2.get? 2 = some Ev.opCommit ∧
    (Scs.userDidAuthenticate ⟨none, .ok "sid2", .ok true, none, none⟩
        (fun s => "h:" ++ s) "u1" "oldsid").2.get? 4 = some (Ev.opFind "oldsid") := by
  exact ⟨rfl, rfl, rfl⟩

/-- Claim C3 (counterexample): in the scs-backed `UserSessions`
implementation, a failure to delete the displaced concurrent session is NOT
swallowed: `UserDidAuthenticate` aborts with the wrapped delete error, and
neither the pointer update nor the session-created log ever happens. -/
theorem scs_displacement_delete_failure_aborts :
    (Scs.userDidAuthenticate ⟨none, .ok "sid2", .ok true, some (.other "boom"), none⟩
        (fun s => "h:" ++ s) "u1" "oldsid").1
      = .error (.wrapped "Error deleting a previous session on login" (.other "boom")) ∧
    (Scs.userDidAuthenticate ⟨none, .ok "sid2", .ok true, some (.other "boom"), none⟩
        (fun s => "h:" ++ s) "u1" "oldsid").1 ≠ .ok () ∧
    Ev.opUpdateUser "u1" "sid2" ∉
      (Scs.userDidAuthenticate ⟨none, .ok "sid2", .ok true, some (.other "boom"), none⟩
        (fun s => "h:" ++ s) "u1" "oldsid").2 := by
  refine ⟨rfl, ?_, ?_⟩ <;> decide

/-- Claim C1 (counterexample): with a negative configured timeout (the
repository's own tests run with `timeout = -5s`) a `UserDidAuthenticate`
call against a store satisfying the uniqueness invariant returns
successfully, yet ZERO valid sessions exist for the account afterwards —
not exactly one. -/
theorem auth_negative_timeout_counterexample :
    StoreInv ([] : Store) ∧
    (SessionSvc.userDidAuthenticate dbStorage (fun s => "h:" ++ s) (-5) 0 "k1" "acct"
        ([] : Store)).1 = .ok "k1" ∧
    validSessionsFor "acct" 0
      (SessionSvc.userDidAuthenticate dbStorage (fun s => "h:" ++ s) (-5) 0 "k1" "acct"
        ([] : Store)).2.1 = [] := by
  exact ⟨List.Pairwise.nil, rfl, rfl⟩

/-- Claim C8 (counterexample): the Access Gate's rejections are NOT
identical across causes: an expired session and a missing session produce
the same 401 status but different response bodies (the cause-specific
messages differ), so the sub-reason is visible to the caller. -/
theorem middleware_rejection_bodies_differ :
    (Seshttp.middleware (fun _ => .error .sessionExpired) (some "k")).1
      = .respond Domain.SessionExpired 401 ∧
    (Seshttp.middleware (fun _ => .error .validSessionNotFound) (some "k")).1
      = .respond Domain.SessionDoesNotExist 401 ∧
    (Seshttp.middleware (fun _ => .error .sessionExpired) (some "k")).1
      ≠ (Seshttp.middleware (fun _ => .error .validSessionNotFound) (some "k")).1 := by
  refine ⟨rfl, rfl, ?_⟩
  decide

/-- Claim C8 (amended): every rejection by the middleware carries the same
HTTP status 401 (500 for unexpected errors) and the wrapped handler runs
only on successful validation, but the JSON body carries the
cause-specific message — missing cookie, not-found and expired bodies
differ; the sub-reason is also logged. -/
theorem middleware_uniform_status_distinct_message
    (validate : String → Except GoErr Session) (key : String) :
    ((Seshttp.middleware validate none).1
      = .respond Domain.RequestIsMissingSessionCookie 401) ∧
    (validate key = .error .sessionExpired →
      (Seshttp.middleware validate (some key)).1 = .respond Domain.SessionExpired 401) ∧
    (validate key = .error .validSessionNotFound →
      (Seshttp.middleware validate (some key)).1 = .respond Domain.SessionDoesNotExist 401) ∧
    (∀ s, (Seshttp.middleware validate (some key)).1 = .next s → validate key = .ok s) := by
  refine ⟨rfl, ?_, ?_, ?_⟩
  · intro h
    simp [Seshttp.middleware, h]
  · intro h
    simp [Seshttp.middleware, h]
  · intro s h
    revert h
    unfold Seshttp.middleware
    cases hv : validate key with
    | ok s' => simp [hv]
    | error e => cases e <;> simp [hv]

/-- Helper: when no row carries the key, the conditional update finds
nothing and the secondary lookup finds nothing, so `ExtendAndFetchSession`
reports `ErrValidSessionNotFound` and leaves the store unchanged. -/
theorem extend_notFound_of_no_key (now timeout : Int) (sessionKey : String)
    (rows : Store) (h : ∀ r ∈ rows, r.sessionKey ≠ sessionKey) :
    DBStore.extendAndFetchSession now sessionKey timeout rows
      = (.error .validSessionNotFound, rows) := by
  have hfn : rows.find? (fun r =>
      r.sessionKey == sessionKey && decide (now < r.expirationDate)) = none := by
    rw [List.find?_eq_none]
    intro r hr hp
    simp only [Bool.and_eq_true, beq_iff_eq, decide_eq_true_eq] at hp
    exact h r hr hp.1
  have hfn2 : rows.find? (fun r => r.sessionKey == sessionKey) = none := by
    rw [List.find?_eq_none]
    intro r hr hp
    simp only [beq_iff_eq] at hp
    exact h r hr hp
  unfold DBStore.extendAndFetchSession
  rw [hfn, hfn2]

/-- Helper: `GetSessionIfValid` on a store with no row for the key yields
`ErrValidSessionNotFound`. -/
theorem getSessionIfValid_notFound_of_no_key (hf : String → String)
    (timeout now : Int) (sessionKey : String) (rows : Store)
    (h : ∀ r ∈ rows, r.sessionKey ≠ sessionKey) :
    (SessionSvc.getSessionIfValid dbStorage hf timeout now sessionKey rows).1
      = .error .validSessionNotFound := by
  unfold SessionSvc.getSessionIfValid
  have he := extend_notFound_of_no_key now timeout sessionKey rows h
  simp [dbStorage, he]

/-- Claim C2: for every session key, when the conditional extend-update of
`ExtendAndFetchSession` affects no row, the secondary lookup classifies the
failure: a row with that key exists (necessarily already expired, i.e. its
expiration is at or before `now`) ⟹ `ErrSessionExpired`; no row with that
key ⟹ `ErrValidSessionNotFound`; and when a matching non-expired row
exists the extended row is returned.  `GetSessionIfValid` passes the
result through unchanged. -/
theorem extend_disambiguates_expired_from_missing
    (now timeout : Int) (sessionKey : String) (rows : Store) :
    ((∃ r ∈ rows, r.sessionKey = sessionKey ∧ now < r.expirationDate) →
      ∃ s, (DBStore.extendAndFetchSession now sessionKey timeout rows).1 = .ok s ∧
        s.sessionKey = sessionKey ∧ s.expirationDate = now + timeout) ∧
    ((¬ ∃ r ∈ rows, r.sessionKey = sessionKey ∧ now < r.expirationDate) →
      (∃ r ∈ rows, r.sessionKey = sessionKey) →
      (DBStore.extendAndFetchSession now sessionKey timeout rows).1
          = .error .sessionExpired ∧
      ∀ r ∈ rows, r.sessionKey = sessionKey → r.expirationDate ≤ now) ∧
    ((∀ r ∈ rows, r.sessionKey ≠ sessionKey) →
      (DBStore.extendAndFetchSession now sessionKey timeout rows).1
          = .error .validSessionNotFound) ∧
    (∀ hf : String → String,
      (SessionSvc.getSessionIfValid dbStorage hf timeout now sessionKey rows).1
        = (DBStore.extendAndFetchSession now sessionKey timeout rows).1) := by
  refine ⟨?_, ?_, ?_, ?_⟩
  · intro hex
    have hsome : (rows.find? (fun r =>
        r.sessionKey == sessionKey && decide (now < r.expirationDate))).isSome := by
      rw [List.find?_isSome]
      obtain ⟨r, hr, hk, hlt⟩ := hex
      exact ⟨r, hr, by simp [hk, hlt]⟩
    obtain ⟨r, hr⟩ := Option.isSome_iff_exists.mp hsome
    have hp := List.find?_some hr
    simp only [Bool.and_eq_true, beq_iff_eq, decide_eq_true_eq] at hp
    refine ⟨{ r with expirationDate := now + timeout }, ?_, hp.1, rfl⟩
    unfold DBStore.extendAndFetchSession
    rw [hr]
  · intro hnone hex
    have hfn : rows.find? (fun r =>
        r.sessionKey == sessionKey && decide (now < r.expirationDate)) = none := by
      rw [List.find?_eq_none]
      intro r hr hp
      simp only [Bool.and_eq_true, beq_iff_eq, decide_eq_true_eq] at hp
      exact hnone ⟨r, hr, hp.1, hp.2⟩
    have hle : ∀ r ∈ rows, r.sessionKey = sessionKey → r.expirationDate ≤ now := by
      intro r hr hk
      by_contra hgt
      exact hnone ⟨r, hr, hk, lt_of_not_ge fun h => hgt (by omega)⟩
    have hsome : (rows.find? (fun r => r.sessionKey == sessionKey)).isSome := by
      rw [List.find?_isSome]
      obtain ⟨r, hr, hk⟩ := hex
      exact ⟨r, hr, by simp [hk]⟩
    obtain ⟨r, hr⟩ := Option.isSome_iff_exists.mp hsome
    refine ⟨?_, hle⟩
    unfold DBStore.extendAndFetchSession
    rw [hfn, hr]
  · intro hall
    have hfn : rows.find? (fun r =>
        r.sessionKey == sessionKey && decide (now < r.expirationDate)) = none := by
      rw [List.find?_eq_none]
      intro r hr hp
      simp only [Bool.and_eq_true, beq_iff_eq, decide_eq_true_eq] at hp
      exact hall r hr hp.1
    have hfn2 : rows.find? (fun r => r.sessionKey == sessionKey) = none := by
      rw [List.find?_eq_none]
      intro r hr hp
      simp only [beq_iff_eq] at hp
      exact hall r hr hp
    unfold DBStore.extendAndFetchSession
    rw [hfn, hfn2]
  · intro hf
    unfold SessionSvc.getSessionIfValid
    cases h : (DBStore.extendAndFetchSession now sessionKey timeout rows).1 with
    | ok s => simp [dbStorage, h]
    | error e =>
      simp only [dbStorage, h]
      split
      · rfl
      · split <;> rfl

/-- Claim C2 witness: the disambiguation theorem applied to a concrete
one-row store: a row whose expiration 5 is not after `now = 7` yields
`ErrSessionExpired`, and the row is indeed expired. -/
theorem extend_disambiguates_expired_from_missing_witness :
    (DBStore.extendAndFetchSession 7 "k" 10 [⟨"A", "k", 5⟩]).1
      = .error .sessionExpired :=
  ((extend_disambiguates_expired_from_missing 7 10 "k" [⟨"A", "k", 5⟩]).2.1
    (by decide) ⟨⟨"A", "k", 5⟩, by decide, rfl⟩).1

/-- Claim C6: `DeleteSession` deletes every row with the key; when zero
rows are affected (no such row), `UserDidLogout` surfaces
`ErrValidSessionNotFound` instead of silently succeeding; and after a
`UserDidLogout` (successful or not) no row with the key remains, so an
immediately following `GetSessionIfValid` yields `ErrValidSessionNotFound`,
never `ErrSessionExpired`. -/
theorem logout_notfound_semantics (hf : String → String) (now now2 timeout : Int)
    (sessionKey : String) (rows : Store) :
    (((DBStore.deleteSession now sessionKey rows).1 = .error .validSessionNotFound)
      ↔ ∀ r ∈ rows, r.sessionKey ≠ sessionKey) ∧
    ((∀ r ∈ rows, r.sessionKey ≠ sessionKey) →
      (SessionSvc.userDidLogout dbStorage hf now sessionKey rows).1
        = .error .validSessionNotFound) ∧
    ((∃ r ∈ rows, r.sessionKey = sessionKey) →
      (SessionSvc.userDidLogout dbStorage hf now sessionKey rows).1 = .ok ()) ∧
    (∀ q ∈ (SessionSvc.userDidLogout dbStorage hf now sessionKey rows).2.1,
      q.sessionKey ≠ sessionKey) ∧
    (SessionSvc.getSessionIfValid dbStorage hf timeout now2 sessionKey
        (SessionSvc.userDidLogout dbStorage hf now sessionKey rows).2.1).1
      = .error .validSessionNotFound := by
  have hstate : ∀ q ∈ (SessionSvc.userDidLogout dbStorage hf now sessionKey rows).2.1,
      q.sessionKey ≠ sessionKey := by
    unfold SessionSvc.userDidLogout
    by_cases hany : rows.any (fun r => r.sessionKey == sessionKey)
    · simp only [dbStorage, DBStore.deleteSession, hany, if_true]
      intro q hq
      rw [List.mem_filter] at hq
      simpa [bne_iff_ne] using hq.2
    · simp only [dbStorage, DBStore.deleteSession, hany, if_false]
      intro q hq hk
      rw [List.any_eq_true] at hany
      exact hany ⟨q, hq, by simp [hk]⟩
  refine ⟨?_, ?_, ?_, hstate, ?_⟩
  · constructor
    · intro hdel r hr hk
      unfold DBStore.deleteSession at hdel
      by_cases hany : rows.any (fun r => r.sessionKey == sessionKey)
      · simp [hany] at hdel
      · rw [List.any_eq_true] at hany
        exact hany ⟨r, hr, by simp [hk]⟩
    · intro hall
      have hany : rows.any (fun r => r.sessionKey == sessionKey) = false := by
        rw [List.any_eq_false]
        intro r hr
        simpa using hall r hr
      unfold DBStore.deleteSession
      rw [hany]
      rfl
  · intro hall
    have hany : rows.any (fun r => r.sessionKey == sessionKey) = false := by
      rw [List.any_eq_false]
      intro r hr
      simpa using hall r hr
    unfold SessionSvc.userDidLogout
    simp [dbStorage, DBStore.deleteSession, hany]
  · intro hex
    have hany : rows.any (fun r => r.sessionKey == sessionKey) = true := by
      rw [List.any_eq_true]
      obtain ⟨r, hr, hk⟩ := hex
      exact ⟨r, hr, by simp [hk]⟩
    unfold SessionSvc.userDidLogout
    simp [dbStorage, DBStore.deleteSession, hany]
  · exact getSessionIfValid_notFound_of_no_key hf timeout now2 sessionKey _ hstate

/-- Claim C6 witness: on a one-row store, destroying the session then
validating its key reports `ErrValidSessionNotFound`, and the logout on
the present key succeeds. -/
theorem logout_notfound_semantics_witness :
    (SessionSvc.userDidLogout dbStorage (fun s => "h:" ++ s) 0 "k"
        [⟨"A", "k", 5⟩]).1 = .ok () ∧
    (SessionSvc.getSessionIfValid dbStorage (fun s => "h:" ++ s) 10 1 "k"
        (SessionSvc.userDidLogout dbStorage (fun s => "h:" ++ s) 0 "k"
          [⟨"A", "k", 5⟩]).2.1).1 = .error .validSessionNotFound :=
  ⟨(logout_notfound_semantics (fun s => "h:" ++ s) 0 1 10 "k" [⟨"A", "k", 5⟩]).2.2.1
      ⟨⟨"A", "k", 5⟩, by decide, rfl⟩,
   (logout_notfound_semantics (fun s => "h:" ++ s) 0 1 10 "k" [⟨"A", "k", 5⟩]).2.2.2.2⟩

/-- Claim C5: expiration dates only move forward or the row is deleted.
On every store state reachable by the core (all rows obey
`expirationDate ≤ now + timeout`, the bound that creation and every
earlier extension established), `ExtendAndFetchSession` never moves any
surviving row's expiration backward, and — P2 — validating a session with
remaining TTL `t1 < timeout` returns it re-stamped to `now + timeout`,
strictly greater than its prior expiration.  Conjuncts (c) and (d) show
the bound is itself preserved by extension and established by creation,
so it is an invariant of the running service. -/
theorem expiration_moves_forward (now timeout : Int)
    (sessionKey accountID newKey : String) (rows : Store)
    (hbound : ∀ r ∈ rows, r.expirationDate ≤ now + timeout) :
    (∀ q ∈ (DBStore.extendAndFetchSession now sessionKey timeout rows).2,
      ∃ r ∈ rows, r.sessionKey = q.sessionKey ∧ r.expirationDate ≤ q.expirationDate) ∧
    (∀ r ∈ rows, r.sessionKey = sessionKey → now < r.expirationDate →
      r.expirationDate < now + timeout →
      ∃ s, (DBStore.extendAndFetchSession now sessionKey timeout rows).1 = .ok s ∧
        s.expirationDate = now + timeout ∧ r.expirationDate < s.expirationDate) ∧
    (∀ q ∈ (DBStore.extendAndFetchSession now sessionKey timeout rows).2,
      q.expirationDate ≤ now + timeout) ∧
    (∀ q ∈ (DBStore.createSession now accountID newKey timeout rows).2,
      q.expirationDate ≤ now + timeout) := by
  have hpost : ∀ q ∈ (DBStore.extendAndFetchSession now sessionKey timeout rows).2,
      ∃ r ∈ rows, r.sessionKey = q.sessionKey ∧ r.expirationDate ≤ q.expirationDate ∧
        q.expirationDate ≤ now + timeout := by
    unfold DBStore.extendAndFetchSession
    cases hfind : rows.find? (fun r =>
        r.sessionKey == sessionKey && decide (now < r.expirationDate)) with
    | none =>
      cases hfind2 : rows.find? (fun r => r.sessionKey == sessionKey) with
      | none =>
        intro q hq
        exact ⟨q, hq, rfl, le_refl _, hbound q hq⟩
      | some r0 =>
        intro q hq
        exact ⟨q, hq, rfl, le_refl _, hbound q hq⟩
    | some r0 =>
      intro q hq
      simp only [List.mem_map] at hq
      obtain ⟨p, hp, hq⟩ := hq
      by_cases hc : (p.sessionKey == sessionKey && decide (now < p.expirationDate)) = true
      · rw [if_pos hc] at hq
        subst hq
        exact ⟨p, hp, rfl, hbound p hp, le_refl _⟩
      · rw [if_neg hc] at hq
        subst hq
        exact ⟨p, hp, rfl, le_refl _, hbound p hp⟩
  refine ⟨fun q hq => ?_, ?_, fun q hq => ?_, ?_⟩
  · obtain ⟨r, hr, hk, hle, _⟩ := hpost q hq
    exact ⟨r, hr, hk, hle⟩
  · intro r hr hk hlt hrem
    have hsome : (rows.find? (fun r =>
        r.sessionKey == sessionKey && decide (now < r.expirationDate))).isSome := by
      rw [List.find?_isSome]
      exact ⟨r, hr, by simp [hk, hlt]⟩
    obtain ⟨r0, hr0⟩ := Option.isSome_iff_exists.mp hsome
    refine ⟨{ r0 with expirationDate := now + timeout }, ?_, rfl, hrem⟩
    unfold DBStore.extendAndFetchSession
    rw [hr0]
  · obtain ⟨_, _, _, _, hb⟩ := hpost q hq
    exact hb
  · unfold DBStore.createSession
    by_cases hc : rows.any (fun r =>
        r.sessionKey == newKey || r.accountID == accountID) = true
    · rw [if_pos hc]
      exact hbound
    · rw [if_neg hc]
      intro q hq
      rw [List.mem_append] at hq
      cases hq with
      | inl h => exact hbound q h
      | inr h =>
        rw [List.mem_singleton] at h
        subst h
        exact le_refl _

/-- Claim C5 witness: a row with remaining TTL 2 (< timeout 10) at
instant 3 is re-stamped to expiration 13, strictly later than 5. -/
theorem expiration_moves_forward_witness :
    ∃ s, (DBStore.extendAndFetchSession 3 "k" 10 [⟨"A", "k", 5⟩]).1 = .ok s ∧
      s.expirationDate = 13 ∧ (5 : Int) < s.expirationDate := by
  have h := (expiration_moves_forward 3 10 "k" "B" "k2" [⟨"A", "k", 5⟩]
      (by decide)).2.1 ⟨"A", "k", 5⟩ (by decide) rfl (by decide) (by decide)
  simpa using h

/-- Claim C9 (counterexample): the previous-session-expired event emitted
by `session.Service.UserDidAuthenticate` carries only the account id.  In
this run the displaced key is "oldkey" and its hash is "h:oldkey", yet the
emitted previous-session-expired event has no field with that value — its
field list is exactly `[("account_id", "A")]` — so not every lifecycle
event includes the hashed session key. -/
theorem prev_expired_event_lacks_hashed_key :
    ((SessionSvc.userDidAuthenticate dbStorage (fun s => "h:" ++ s) 5 0 "k1" "A"
        [⟨"A", "oldkey", -1⟩]).2.2.any
      (isInfoWith (Domain.prevExpiredMsg (-1))) = true) ∧
    ((SessionSvc.userDidAuthenticate dbStorage (fun s => "h:" ++ s) 5 0 "k1" "A"
        [⟨"A", "oldkey", -1⟩]).2.2.any
      (fun e => isInfoWith (Domain.prevExpiredMsg (-1)) e
          && hasFieldValue ("h:" ++ "oldkey") e) = false) ∧
    Ev.info (Domain.prevExpiredMsg (-1)) [("account_id", "A")]
      ∈ (SessionSvc.userDidAuthenticate dbStorage (fun s => "h:" ++ s) 5 0 "k1" "A"
        [⟨"A", "oldkey", -1⟩]).2.2 := by
  refine ⟨?_, ?_, ?_⟩ <;> decide

/-- Claim C3 (amended): in the `session.Service` implementation a
displacement-delete failure is swallowed: whenever the fetch finds an
extant session for the account, the delete of it fails with any error, and
the subsequent create succeeds, `UserDidAuthenticate` still returns the
new key successfully and merely logs the warning.  (In the scs-backed
`UserSessions` implementation, by contrast, a failed delete of a
concurrent session aborts the call with an error — see the
counterexample.) -/
theorem service_auth_swallows_displacement_delete_failure {σ : Type}
    (S : StorageService σ) (hf : String → String) (timeout now : Int)
    (sessionKey accountID : String) (st st1 st2 st3 : σ) (extant : Session) (e : GoErr)
    (hfetch : S.fetchPossiblyExpiredSession now accountID st = (.ok extant, st1))
    (hdel : S.deleteSession now extant.sessionKey st1 = (.error e, st2))
    (hcreate : S.createSession now accountID sessionKey timeout st2 = (.ok (), st3)) :
    (SessionSvc.userDidAuthenticate S hf timeout now sessionKey accountID st).1
        = .ok sessionKey ∧
    (SessionSvc.userDidAuthenticate S hf timeout now sessionKey accountID st).2.1 = st3 ∧
    Ev.warn Domain.DeleteDisplacedFailed [("account_id", accountID)]
      ∈ (SessionSvc.userDidAuthenticate S hf timeout now sessionKey accountID st).2.2 := by
  by_cases hx : extant.expirationDate < now <;>
    simp [SessionSvc.userDidAuthenticate, SessionSvc.deleteDisplaced,
      SessionSvc.finishCreate, hfetch, hdel, hcreate, hx]

/-- A storage behavior whose delete always fails, used to witness the
swallowing of displacement-delete failures. -/
def faultyDeleteStore : StorageService Unit :=
  { fetchPossiblyExpiredSession := fun _ _ _ => (.ok ⟨"A", "oldkey", 10⟩, ())
    createSession := fun _ _ _ _ _ => (.ok (), ())
    deleteSession := fun _ _ _ => (.error (.other "boom"), ())
    extendAndFetchSession := fun _ _ _ _ => (.error .validSessionNotFound, ()) }

/-- Claim C3 witness: against a store whose delete always fails,
`UserDidAuthenticate` still succeeds with the new key. -/
theorem service_auth_swallows_displacement_delete_failure_witness :
    (SessionSvc.userDidAuthenticate faultyDeleteStore (fun s => "h:" ++ s)
        5 0 "k1" "A" ()).1 = .ok "k1" :=
  (service_auth_swallows_displacement_delete_failure faultyDeleteStore
    (fun s => "h:" ++ s) 5 0 "k1" "A" () () () () ⟨"A", "oldkey", 10⟩
    (.other "boom") rfl rfl rfl).1

/-- Claim C4 (amended): the two implementations order their steps
differently.  `session.Service.UserDidAuthenticate` (displacing a still
valid extant session, with the delete and create succeeding) performs
exactly: generate key → fetch existing → log concurrent-login → delete →
create → log created, with no pointer step at all.  The scs-backed
`UserSessions.UserDidAuthenticate` (same scenario, all collaborators
succeeding) performs exactly: renew token → put user id → commit the NEW
session → put session id → find the existing session → log
concurrent-login → delete it → update the user pointer → log created — so
the new session is committed to the store BEFORE the existing session is
inspected and displaced, while the pointer is still only written after the
store operations succeed. -/
theorem auth_operation_order (hf : String → String) (timeout now : Int)
    (sessionKey accountID : String) (rows : Store) (extant : Session)
    (userID currentSessionID sid : String) (b : Scs.ScsBehavior)
    (hfind : rows.find? (fun r => r.accountID == accountID) = some extant)
    (hvalid : ¬ extant.expirationDate < now)
    (hnoconf : ∀ r ∈ rows.filter (fun r => r.sessionKey != extant.sessionKey),
      r.sessionKey ≠ sessionKey ∧ r.accountID ≠ accountID)
    (hb : b = ⟨none, .ok sid, .ok true, none, none⟩)
    (huid : userID ≠ "") (hcur : currentSessionID ≠ "") :
    (SessionSvc.userDidAuthenticate dbStorage hf timeout now sessionKey accountID rows).2.2
      = [Ev.opGenKey sessionKey, Ev.opFetch accountID,
         Ev.info Domain.SessionConcurrentLogin
           [("prev_session_hash", hf extant.sessionKey)],
         Ev.opDelete extant.sessionKey, Ev.opCreate accountID sessionKey,
         Ev.info Domain.SessionCreated [("session_hash", hf sessionKey)]] ∧
    (Scs.userDidAuthenticate b hf userID currentSessionID).2
      = [Ev.opRenew, Ev.opPut Scs.userIDKey userID, Ev.opCommit,
         Ev.opPut Scs.seshIDKey sid, Ev.opFind currentSessionID,
         Ev.info Scs.concurrentLoginMessage [("session_id_hash", hf currentSessionID)],
         Ev.opScsDelete currentSessionID, Ev.opUpdateUser userID sid,
         Ev.info Scs.sessionCreatedMessage [("session_id_hash", hf sid)]] := by
  constructor
  · have hmem := List.mem_of_find?_eq_some hfind
    have hany : rows.any (fun r => r.sessionKey == extant.sessionKey) = true := by
      rw [List.any_eq_true]
      exact ⟨extant, hmem, by simp⟩
    have hconf : ¬ ∃ x ∈ rows.filter (fun r => r.sessionKey != extant.sessionKey),
        x.sessionKey = sessionKey ∨ x.accountID = accountID := by
      rintro ⟨x, hx, hor⟩
      cases hor with
      | inl h => exact (hnoconf x hx).1 h
      | inr h => exact (hnoconf x hx).2 h
    simp [SessionSvc.userDidAuthenticate, SessionSvc.deleteDisplaced,
      SessionSvc.finishCreate, dbStorage, DBStore.fetchPossiblyExpiredSession,
      DBStore.deleteSession, DBStore.createSession, hfind, hvalid, hany]
    rw [if_neg hconf]
  · subst hb
    simp [Scs.userDidAuthenticate, Scs.finishAuth, huid, hcur]

/-- Claim C4 witness: the order theorem applied to a concrete one-row
store with a valid extant session and all-successful collaborators. -/
theorem auth_operation_order_witness :
    (SessionSvc.userDidAuthenticate dbStorage (fun s => "h:" ++ s) 5 0 "k1" "A"
        [⟨"A", "oldkey", 10⟩]).2.2
      = [Ev.opGenKey "k1", Ev.opFetch "A",
         Ev.info Domain.SessionConcurrentLogin [("prev_session_hash", "h:" ++ "oldkey")],
         Ev.opDelete "oldkey", Ev.opCreate "A" "k1",
         Ev.info Domain.SessionCreated [("session_hash", "h:" ++ "k1")]] :=
  (auth_operation_order (fun s => "h:" ++ s) 5 0 "k1" "A" [⟨"A", "oldkey", 10⟩]
    ⟨"A", "oldkey", 10⟩ "u1" "oldsid" "sid2" ⟨none, .ok "sid2", .ok true, none, none⟩
    (by decide) (by decide) (by decide) rfl (by decide) (by decide)).1

/-- Helper: no extant row for the account and no conflicting row at all —
the authenticate call succeeds and appends the fresh row. -/
theorem auth_run_none_ok (hf : String → String) (timeout now : Int)
    (sessionKey accountID : String) (rows : Store)
    (hfind : rows.find? (fun r => r.accountID == accountID) = none)
    (hconf : ¬ ∃ x ∈ rows, x.sessionKey = sessionKey ∨ x.accountID = accountID) :
    (SessionSvc.userDidAuthenticate dbStorage hf timeout now sessionKey accountID rows).1
        = .ok sessionKey ∧
    (SessionSvc.userDidAuthenticate dbStorage hf timeout now sessionKey accountID rows).2.1
        = rows ++ [⟨accountID, sessionKey, now + timeout⟩] := by
  constructor <;>
    (simp [SessionSvc.userDidAuthenticate, SessionSvc.finishCreate, dbStorage,
      DBStore.fetchPossiblyExpiredSession, DBStore.createSession, hfind]
     rw [if_neg hconf])

/-- Helper: no extant row for the account but a conflicting row elsewhere —
the insert fails and the store is unchanged. -/
theorem auth_run_none_conflict (hf : String → String) (timeout now : Int)
    (sessionKey accountID : String) (rows : Store)
    (hfind : rows.find? (fun r => r.accountID == accountID) = none)
    (hconf : ∃ x ∈ rows, x.sessionKey = sessionKey ∨ x.accountID = accountID) :
    (SessionSvc.userDidAuthenticate dbStorage hf timeout now sessionKey accountID rows).1
        = .error (.other "Unexpectedly failed to create a session") ∧
    (SessionSvc.userDidAuthenticate dbStorage hf timeout now sessionKey accountID rows).2.1
        = rows := by
  constructor <;>
    (simp [SessionSvc.userDidAuthenticate, SessionSvc.finishCreate, dbStorage,
      DBStore.fetchPossiblyExpiredSession, DBStore.createSession, hfind]
     rw [if_pos hconf])

/-- Helper: an extant row is displaced (expired or not) and the remaining
rows are conflict-free — the call succeeds; the displaced key's rows are
filtered out and the fresh row appended. -/
theorem auth_run_some_ok (hf : String → String) (timeout now : Int)
    (sessionKey accountID : String) (rows : Store) (extant : Session)
    (hfind : rows.find? (fun r => r.accountID == accountID) = some extant)
    (hconf : ¬ ∃ x ∈ rows.filter (fun r => r.sessionKey != extant.sessionKey),
      x.sessionKey = sessionKey ∨ x.accountID = accountID) :
    (SessionSvc.userDidAuthenticate dbStorage hf timeout now sessionKey accountID rows).1
        = .ok sessionKey ∧
    (SessionSvc.userDidAuthenticate dbStorage hf timeout now sessionKey accountID rows).2.1
        = rows.filter (fun r => r.sessionKey != extant.sessionKey)
            ++ [⟨accountID, sessionKey, now + timeout⟩] := by
  have hmem := List.mem_of_find?_eq_some hfind
  have hany : rows.any (fun r => r.sessionKey == extant.sessionKey) = true :=
    List.any_eq_true.mpr ⟨extant, hmem, by simp⟩
  by_cases hx : extant.expirationDate < now <;>
    (constructor <;>
      (simp [SessionSvc.userDidAuthenticate, SessionSvc.deleteDisplaced,
        SessionSvc.finishCreate, dbStorage, DBStore.fetchPossiblyExpiredSession,
        DBStore.deleteSession, DBStore.createSession, hfind, hx, hany]
       rw [if_neg hconf]))

/-- Helper: an extant row is displaced but a conflicting row survives the
displacement — the insert fails, leaving the filtered store. -/
theorem auth_run_some_conflict (hf : String → String) (timeout now : Int)
    (sessionKey accountID : String) (rows : Store) (extant : Session)
    (hfind : rows.find? (fun r => r.accountID == accountID) = some extant)
    (hconf : ∃ x ∈ rows.filter (fun r => r.sessionKey != extant.sessionKey),
      x.sessionKey = sessionKey ∨ x.accountID = accountID) :
    (SessionSvc.userDidAuthenticate dbStorage hf timeout now sessionKey accountID rows).1
        = .error (.other "Unexpectedly failed to create a session") ∧
    (SessionSvc.userDidAuthenticate dbStorage hf timeout now sessionKey accountID rows).2.1
        = rows.filter (fun r => r.sessionKey != extant.sessionKey) := by
  have hmem := List.mem_of_find?_eq_some hfind
  have hany : rows.any (fun r => r.sessionKey == extant.sessionKey) = true :=
    List.any_eq_true.mpr ⟨extant, hmem, by simp⟩
  by_cases hx : extant.expirationDate < now <;>
    (constructor <;>
      (simp [SessionSvc.userDidAuthenticate, SessionSvc.deleteDisplaced,
        SessionSvc.finishCreate, dbStorage, DBStore.fetchPossiblyExpiredSession,
        DBStore.deleteSession, DBStore.createSession, hfind, hx, hany]
       rw [if_pos hconf]))

/-- Helper: every `userDidAuthenticate` run against the db store either
errors with the post-state a sublist of the input rows, or returns the
generated key with the post-state `mid ++ [fresh row]` where `mid` is a
sublist of the input rows containing no row for the key or the account. -/
theorem auth_post_cases (hf : String → String) (timeout now : Int)
    (sessionKey accountID : String) (rows : Store) :
    (∃ e, (SessionSvc.userDidAuthenticate dbStorage hf timeout now sessionKey accountID rows).1
        = .error e ∧
      ((SessionSvc.userDidAuthenticate dbStorage hf timeout now sessionKey accountID rows).2.1).Sublist
        rows) ∨
    ((SessionSvc.userDidAuthenticate dbStorage hf timeout now sessionKey accountID rows).1
        = .ok sessionKey ∧
      ∃ mid : Store, mid.Sublist rows ∧
        (SessionSvc.userDidAuthenticate dbStorage hf timeout now sessionKey accountID rows).2.1
          = mid ++ [⟨accountID, sessionKey, now + timeout⟩] ∧
        ∀ r ∈ mid, r.sessionKey ≠ sessionKey ∧ r.accountID ≠ accountID) := by
  cases hfind : rows.find? (fun r => r.accountID == accountID) with
  | none =>
    by_cases hconf : ∃ x ∈ rows, x.sessionKey = sessionKey ∨ x.accountID = accountID
    · obtain ⟨h1, h2⟩ := auth_run_none_conflict hf timeout now sessionKey accountID
        rows hfind hconf
      refine Or.inl ⟨_, h1, ?_⟩
      rw [h2]
    · obtain ⟨h1, h2⟩ := auth_run_none_ok hf timeout now sessionKey accountID
        rows hfind hconf
      refine Or.inr ⟨h1, rows, List.Sublist.refl rows, h2, ?_⟩
      intro r hr
      constructor
      · intro hk
        exact hconf ⟨r, hr, Or.inl hk⟩
      · intro ha
        exact hconf ⟨r, hr, Or.inr ha⟩
  | some extant =>
    by_cases hconf : ∃ x ∈ rows.filter (fun r => r.sessionKey != extant.sessionKey),
        x.sessionKey = sessionKey ∨ x.accountID = accountID
    · obtain ⟨h1, h2⟩ := auth_run_some_conflict hf timeout now sessionKey accountID
        rows extant hfind hconf
      refine Or.inl ⟨_, h1, ?_⟩
      rw [h2]
      exact List.filter_sublist rows
    · obtain ⟨h1, h2⟩ := auth_run_some_ok hf timeout now sessionKey accountID
        rows extant hfind hconf
      refine Or.inr ⟨h1, _, List.filter_sublist rows, h2, ?_⟩
      intro r hr
      constructor
      · intro hk
        exact hconf ⟨r, hr, Or.inl hk⟩
      · intro ha
        exact hconf ⟨r, hr, Or.inr ha⟩

/-- Helper: the uniqueness invariant carries over to `mid ++ [new]` when
`mid` is conflict-free for the new row. -/
theorem inv_append_new (mid : Store) (accountID sessionKey : String) (exp : Int)
    (hmidInv : StoreInv mid)
    (hno : ∀ r ∈ mid, r.sessionKey ≠ sessionKey ∧ r.accountID ≠ accountID) :
    StoreInv (mid ++ [⟨accountID, sessionKey, exp⟩]) := by
  unfold StoreInv
  rw [List.pairwise_append]
  refine ⟨hmidInv, List.pairwise_singleton _ _, ?_⟩
  intro a ha b hb
  rw [List.mem_singleton] at hb
  subst hb
  exact ⟨(hno a ha).2, (hno a ha).1⟩

/-- Helper: the valid sessions for the account after appending the fresh
row to an account-free `mid` are exactly the fresh row (positive timeout). -/
theorem valid_append_new (mid : Store) (accountID sessionKey : String)
    (now timeout : Int) (hT : 0 < timeout)
    (hno : ∀ r ∈ mid, r.accountID ≠ accountID) :
    validSessionsFor accountID now (mid ++ [⟨accountID, sessionKey, now + timeout⟩])
      = [⟨accountID, sessionKey, now + timeout⟩] := by
  unfold validSessionsFor
  rw [List.filter_append]
  have h1 : mid.filter (fun r =>
      r.accountID == accountID && decide (now < r.expirationDate)) = [] := by
    rw [List.filter_eq_nil_iff]
    intro r hr hp
    simp only [Bool.and_eq_true, beq_iff_eq, decide_eq_true_eq] at hp
    exact hno r hr hp.1
  rw [h1, List.nil_append]
  have h2 : (now < now + timeout) := by omega
  simp [h2]

/-- Helper: a successful `userDidAuthenticate` against an invariant store
returns the generated key and leaves exactly one valid session for the
account — the fresh one — while preserving the invariant. -/
theorem auth_ok_valid_unique (hf : String → String) (timeout now : Int)
    (sessionKey accountID : String) (rows : Store) (k : String)
    (hInv : StoreInv rows) (hT : 0 < timeout)
    (hok : (SessionSvc.userDidAuthenticate dbStorage hf timeout now sessionKey accountID rows).1
        = .ok k) :
    k = sessionKey ∧
    validSessionsFor accountID now
        (SessionSvc.userDidAuthenticate dbStorage hf timeout now sessionKey accountID rows).2.1
      = [⟨accountID, k, now + timeout⟩] ∧
    StoreInv (SessionSvc.userDidAuthenticate dbStorage hf timeout now sessionKey accountID rows).2.1 := by
  rcases auth_post_cases hf timeout now sessionKey accountID rows with
    ⟨e, h1, _⟩ | ⟨h1, mid, hsub, hpost, hno⟩
  · rw [h1] at hok
    cases hok
  · rw [h1] at hok
    have hk : k = sessionKey := by
      cases hok
      rfl
    subst hk
    refine ⟨rfl, ?_, ?_⟩
    · rw [hpost]
      exact valid_append_new mid accountID k now timeout hT fun r hr => (hno r hr).2
    · rw [hpost]
      exact inv_append_new mid accountID k (now + timeout)
        (List.Pairwise.sublist hsub hInv) hno

/-- Helper: every `userDidAuthenticate` run — successful or not —
preserves the store's uniqueness invariant. -/
theorem auth_preserves_inv (hf : String → String) (timeout now : Int)
    (sessionKey accountID : String) (rows : Store) (hInv : StoreInv rows) :
    StoreInv (SessionSvc.userDidAuthenticate dbStorage hf timeout now sessionKey accountID rows).2.1 := by
  rcases auth_post_cases hf timeout now sessionKey accountID rows with
    ⟨e, _, hsub⟩ | ⟨_, mid, hsub, hpost, hno⟩
  · exact List.Pairwise.sublist hsub hInv
  · rw [hpost]
    exact inv_append_new mid accountID sessionKey (now + timeout)
      (List.Pairwise.sublist hsub hInv) hno

/-- Claim C1 (amended, with the positive-timeout hypothesis the
counterexample forces): for every sequence of `UserDidAuthenticate` calls
for the same account against a store satisfying the uniqueness invariant,
after each call that returns successfully exactly one valid session exists
for that account — the fresh row carrying the returned key — and the
invariant is preserved, never two valid sessions. -/
theorem auth_exactly_one_valid_session (hf : String → String) (timeout : Int)
    (accountID : String) (hT : 0 < timeout) (calls : List (Int × String))
    (st0 : Store) (hInv : StoreInv st0) :
    ∀ e ∈ authRuns hf timeout accountID calls st0, ∀ k, e.2.1 = .ok k →
      validSessionsFor accountID e.1 e.2.2 = [⟨accountID, k, e.1 + timeout⟩] ∧
      StoreInv e.2.2 := by
  induction calls generalizing st0 with
  | nil =>
    intro e he
    simp [authRuns] at he
  | cons c rest ih =>
    intro e he k hk
    rw [authRuns] at he
    rcases List.mem_cons.mp he with he | he
    · subst he
      have h := auth_ok_valid_unique hf timeout c.1 c.2 accountID st0 k hInv hT hk
      exact ⟨h.2.1, h.2.2⟩
    · exact ih (SessionSvc.userDidAuthenticate dbStorage hf timeout c.1 c.2 accountID st0).2.1
        (auth_preserves_inv hf timeout c.1 c.2 accountID st0 hInv) e he k hk

/-- Claim C1 witness: two successive authentications for "A" at instants 0
and 1 with timeout 10; after the second successful call (the second run
element, which displaced the first session) exactly the second key's row
is valid and the invariant holds. -/
theorem auth_exactly_one_valid_session_witness :
    validSessionsFor "A" 1 [⟨"A", "k2", 11⟩] = [⟨"A", "k2", 11⟩] ∧
    StoreInv [⟨"A", "k2", 11⟩] :=
  auth_exactly_one_valid_session (fun s => "h:" ++ s) 10 "A" (by decide)
    [(0, "k1"), (1, "k2")] [] List.Pairwise.nil
    (1, Except.ok "k2", [⟨"A", "k2", 11⟩]) (by decide) "k2" rfl

/-- Helper: trace of an authenticate run with no extant row and a clean
insert. -/
theorem auth_trace_none_ok (hf : String → String) (timeout now : Int)
    (sessionKey accountID : String) (rows : Store)
    (hfind : rows.find? (fun r => r.accountID == accountID) = none)
    (hconf : ¬ ∃ x ∈ rows, x.sessionKey = sessionKey ∨ x.accountID = accountID) :
    (SessionSvc.userDidAuthenticate dbStorage hf timeout now sessionKey accountID rows).2.2
      = [Ev.opGenKey sessionKey, Ev.opFetch accountID, Ev.opCreate accountID sessionKey,
         Ev.info Domain.SessionCreated [("session_hash", hf sessionKey)]] := by
  simp [SessionSvc.userDidAuthenticate, SessionSvc.finishCreate, dbStorage,
    DBStore.fetchPossiblyExpiredSession, DBStore.createSession, hfind]
  rw [if_neg hconf]

/-- Helper: trace of an authenticate run with no extant row and a
conflicting insert. -/
theorem auth_trace_none_conflict (hf : String → String) (timeout now : Int)
    (sessionKey accountID : String) (rows : Store)
    (hfind : rows.find? (fun r => r.accountID == accountID) = none)
    (hconf : ∃ x ∈ rows, x.sessionKey = sessionKey ∨ x.accountID = accountID) :
    (SessionSvc.userDidAuthenticate dbStorage hf timeout now sessionKey accountID rows).2.2
      = [Ev.opGenKey sessionKey, Ev.opFetch accountID, Ev.opCreate accountID sessionKey] := by
  simp [SessionSvc.userDidAuthenticate, SessionSvc.finishCreate, dbStorage,
    DBStore.fetchPossiblyExpiredSession, DBStore.createSession, hfind]
  rw [if_pos hconf]

/-- Helper: trace of an authenticate run displacing an expired extant
session, with a clean insert. -/
theorem auth_trace_expired_ok (hf : String → String) (timeout now : Int)
    (sessionKey accountID : String) (rows : Store) (extant : Session)
    (hfind : rows.find? (fun r => r.accountID == accountID) = some extant)
    (hx : extant.expirationDate < now)
    (hconf : ¬ ∃ x ∈ rows.filter (fun r => r.sessionKey != extant.sessionKey),
      x.sessionKey = sessionKey ∨ x.accountID = accountID) :
    (SessionSvc.userDidAuthenticate dbStorage hf timeout now sessionKey accountID rows).2.2
      = [Ev.opGenKey sessionKey, Ev.opFetch accountID,
         Ev.info (Domain.prevExpiredMsg extant.expirationDate) [("account_id", accountID)],
         Ev.opDelete extant.sessionKey, Ev.opCreate accountID sessionKey,
         Ev.info Domain.SessionCreated [("session_hash", hf sessionKey)]] := by
  have hmem := List.mem_of_find?_eq_some hfind
  have hany : rows.any (fun r => r.sessionKey == extant.sessionKey) = true :=
    List.any_eq_true.mpr ⟨extant, hmem, by simp⟩
  simp [SessionSvc.userDidAuthenticate, SessionSvc.deleteDisplaced,
    SessionSvc.finishCreate, dbStorage, DBStore.fetchPossiblyExpiredSession,
    DBStore.deleteSession, DBStore.createSession, hfind, hx, hany]
  rw [if_neg hconf]

/-- Helper: trace of an authenticate run displacing an expired extant
session, with a conflicting insert. -/
theorem auth_trace_expired_conflict (hf : String → String) (timeout now : Int)
    (sessionKey accountID : String) (rows : Store) (extant : Session)
    (hfind : rows.find? (fun r => r.accountID == accountID) = some extant)
    (hx : extant.expirationDate < now)
    (hconf : ∃ x ∈ rows.filter (fun r => r.sessionKey != extant.sessionKey),
      x.sessionKey = sessionKey ∨ x.accountID = accountID) :
    (SessionSvc.userDidAuthenticate dbStorage hf timeout now sessionKey accountID rows).2.2
      = [Ev.opGenKey sessionKey, Ev.opFetch accountID,
         Ev.info (Domain.prevExpiredMsg extant.expirationDate) [("account_id", accountID)],
         Ev.opDelete extant.sessionKey, Ev.opCreate accountID sessionKey] := by
  have hmem := List.mem_of_find?_eq_some hfind
  have hany : rows.any (fun r => r.sessionKey == extant.sessionKey) = true :=
    List.any_eq_true.mpr ⟨extant, hmem, by simp⟩
  simp [SessionSvc.userDidAuthenticate, SessionSvc.deleteDisplaced,
    SessionSvc.finishCreate, dbStorage, DBStore.fetchPossiblyExpiredSession,
    DBStore.deleteSession, DBStore.createSession, hfind, hx, hany]
  rw [if_pos hconf]

/-- Helper: trace of an authenticate run displacing a still valid extant
session, with a clean insert. -/
theorem auth_trace_valid_ok (hf : String → String) (timeout now : Int)
    (sessionKey accountID : String) (rows : Store) (extant : Session)
    (hfind : rows.find? (fun r => r.accountID == accountID) = some extant)
    (hx : ¬ extant.expirationDate < now)
    (hconf : ¬ ∃ x ∈ rows.filter (fun r => r.sessionKey != extant.sessionKey),
      x.sessionKey = sessionKey ∨ x.accountID = accountID) :
    (SessionSvc.userDidAuthenticate dbStorage hf timeout now sessionKey accountID rows).2.2
      = [Ev.opGenKey sessionKey, Ev.opFetch accountID,
         Ev.info Domain.SessionConcurrentLogin [("prev_session_hash", hf extant.sessionKey)],
         Ev.opDelete extant.sessionKey, Ev.opCreate accountID sessionKey,
         Ev.info Domain.SessionCreated [("session_hash", hf sessionKey)]] := by
  have hmem := List.mem_of_find?_eq_some hfind
  have hany : rows.any (fun r => r.sessionKey == extant.sessionKey) = true :=
    List.any_eq_true.mpr ⟨extant, hmem, by simp⟩
  simp [SessionSvc.userDidAuthenticate, SessionSvc.deleteDisplaced,
    SessionSvc.finishCreate, dbStorage, DBStore.fetchPossiblyExpiredSession,
    DBStore.deleteSession, DBStore.createSession, hfind, hx, hany]
  rw [if_neg hconf]

/-- Helper: trace of an authenticate run displacing a still valid extant
session, with a conflicting insert. -/
theorem auth_trace_valid_conflict (hf : String → String) (timeout now : Int)
    (sessionKey accountID : String) (rows : Store) (extant : Session)
    (hfind : rows.find? (fun r => r.accountID == accountID) = some extant)
    (hx : ¬ extant.expirationDate < now)
    (hconf : ∃ x ∈ rows.filter (fun r => r.sessionKey != extant.sessionKey),
      x.sessionKey = sessionKey ∨ x.accountID = accountID) :
    (SessionSvc.userDidAuthenticate dbStorage hf timeout now sessionKey accountID rows).2.2
      = [Ev.opGenKey sessionKey, Ev.opFetch accountID,
         Ev.info Domain.SessionConcurrentLogin [("prev_session_hash", hf extant.sessionKey)],
         Ev.opDelete extant.sessionKey, Ev.opCreate accountID sessionKey] := by
  have hmem := List.mem_of_find?_eq_some hfind
  have hany : rows.any (fun r => r.sessionKey == extant.sessionKey) = true :=
    List.any_eq_true.mpr ⟨extant, hmem, by simp⟩
  simp [SessionSvc.userDidAuthenticate, SessionSvc.deleteDisplaced,
    SessionSvc.finishCreate, dbStorage, DBStore.fetchPossiblyExpiredSession,
    DBStore.deleteSession, DBStore.createSession, hfind, hx, hany]
  rw [if_pos hconf]

/-- Helper: a logged event has a field with value `v` iff some field pair
has second component `v`. -/
theorem hasFieldValue_eq_true_iff (v : String) (e : Ev) :
    hasFieldValue v e = true ↔ ∃ p ∈ evFields e, p.2 = v := by
  simp [hasFieldValue]

/-- Helper: every field value logged by `userDidAuthenticate` against the
db store is either the account id or a hash of some string — never
anything else. -/
theorem auth_field_values (hf : String → String) (timeout now : Int)
    (sessionKey accountID : String) (rows : Store) :
    ∀ e ∈ (SessionSvc.userDidAuthenticate dbStorage hf timeout now sessionKey accountID rows).2.2,
      ∀ p ∈ evFields e, p.2 = accountID ∨ ∃ s, p.2 = hf s := by
  cases hfind : rows.find? (fun r => r.accountID == accountID) with
  | none =>
    by_cases hconf : ∃ x ∈ rows, x.sessionKey = sessionKey ∨ x.accountID = accountID
    · rw [auth_trace_none_conflict hf timeout now sessionKey accountID rows hfind hconf]
      intro e he p hp
      simp only [List.mem_cons, List.not_mem_nil, or_false] at he
      rcases he with rfl | rfl | rfl <;> simp [evFields] at hp
    · rw [auth_trace_none_ok hf timeout now sessionKey accountID rows hfind hconf]
      intro e he p hp
      simp only [List.mem_cons, List.not_mem_nil, or_false] at he
      rcases he with rfl | rfl | rfl | rfl
      · simp [evFields] at hp
      · simp [evFields] at hp
      · simp [evFields] at hp
      · simp [evFields] at hp
        subst hp
        exact Or.inr ⟨sessionKey, rfl⟩
  | some extant =>
    by_cases hconf : ∃ x ∈ rows.filter (fun r => r.sessionKey != extant.sessionKey),
        x.sessionKey = sessionKey ∨ x.accountID = accountID
    · by_cases hx : extant.expirationDate < now
      · rw [auth_trace_expired_conflict hf timeout now sessionKey accountID rows extant
          hfind hx hconf]
        intro e he p hp
        simp only [List.mem_cons, List.not_mem_nil, or_false] at he
        rcases he with rfl | rfl | rfl | rfl | rfl
        · simp [evFields] at hp
        · simp [evFields] at hp
        · simp [evFields] at hp
          subst hp
          exact Or.inl rfl
        · simp [evFields] at hp
        · simp [evFields] at hp
      · rw [auth_trace_valid_conflict hf timeout now sessionKey accountID rows extant
          hfind hx hconf]
        intro e he p hp
        simp only [List.mem_cons, List.not_mem_nil, or_false] at he
        rcases he with rfl | rfl | rfl | rfl | rfl
        · simp [evFields] at hp
        · simp [evFields] at hp
        · simp [evFields] at hp
          subst hp
          exact Or.inr ⟨extant.sessionKey, rfl⟩
        · simp [evFields] at hp
        · simp [evFields] at hp
    · by_cases hx : extant.expirationDate < now
      · rw [auth_trace_expired_ok hf timeout now sessionKey accountID rows extant
          hfind hx hconf]
        intro e he p hp
        simp only [List.mem_cons, List.not_mem_nil, or_false] at he
        rcases he with rfl | rfl | rfl | rfl | rfl | rfl
        · simp [evFields] at hp
        · simp [evFields] at hp
        · simp [evFields] at hp
          subst hp
          exact Or.inl rfl
        · simp [evFields] at hp
        · simp [evFields] at hp
        · simp [evFields] at hp
          subst hp
          exact Or.inr ⟨sessionKey, rfl⟩
      · rw [auth_trace_valid_ok hf timeout now sessionKey accountID rows extant
          hfind hx hconf]
        intro e he p hp
        simp only [List.mem_cons, List.not_mem_nil, or_false] at he
        rcases he with rfl | rfl | rfl | rfl | rfl | rfl
        · simp [evFields] at hp
        · simp [evFields] at hp
        · simp [evFields] at hp
          subst hp
          exact Or.inr ⟨extant.sessionKey, rfl⟩
        · simp [evFields] at hp
        · simp [evFields] at hp
        · simp [evFields] at hp
          subst hp
          exact Or.inr ⟨sessionKey, rfl⟩

/-- Claim C9 (amended): the lifecycle events session-created,
session-destroyed, session-expired, session-not-found and
concurrent-login-displaced all include a field carrying the hashed session
key, but the previous-session-expired event carries only the account id
(no hashed key).  Every field value logged during authentication is the
account id or a hash, so — provided the hash never yields one of the raw
keys and the account id differs from them — no logged field ever equals a
raw session key. -/
theorem logged_fields_hashed_key_only (hf : String → String) (timeout now : Int)
    (sessionKey accountID : String) (rows : Store)
    (hkey : ∀ s, hf s ≠ sessionKey)
    (hold : ∀ s, ∀ r ∈ rows, hf s ≠ r.sessionKey)
    (hacct1 : accountID ≠ sessionKey)
    (hacct2 : ∀ r ∈ rows, accountID ≠ r.sessionKey) :
    (∀ e ∈ (SessionSvc.userDidAuthenticate dbStorage hf timeout now sessionKey accountID rows).2.2,
      hasFieldValue sessionKey e = false ∧
      ∀ r ∈ rows, hasFieldValue r.sessionKey e = false) ∧
    ((SessionSvc.userDidAuthenticate dbStorage hf timeout now sessionKey accountID rows).1
        = .ok sessionKey →
      Ev.info Domain.SessionCreated [("session_hash", hf sessionKey)]
        ∈ (SessionSvc.userDidAuthenticate dbStorage hf timeout now sessionKey accountID rows).2.2) ∧
    (∀ extant, rows.find? (fun r => r.accountID == accountID) = some extant →
      extant.expirationDate < now →
      Ev.info (Domain.prevExpiredMsg extant.expirationDate) [("account_id", accountID)]
        ∈ (SessionSvc.userDidAuthenticate dbStorage hf timeout now sessionKey accountID rows).2.2) ∧
    (∀ extant, rows.find? (fun r => r.accountID == accountID) = some extant →
      ¬ extant.expirationDate < now →
      Ev.info Domain.SessionConcurrentLogin [("prev_session_hash", hf extant.sessionKey)]
        ∈ (SessionSvc.userDidAuthenticate dbStorage hf timeout now sessionKey accountID rows).2.2) ∧
    ((SessionSvc.getSessionIfValid dbStorage hf timeout now sessionKey rows).1
        = .error .sessionExpired →
      Ev.info Domain.SessionExpired [("session_hash", hf sessionKey)]
        ∈ (SessionSvc.getSessionIfValid dbStorage hf timeout now sessionKey rows).2.2) ∧
    ((SessionSvc.getSessionIfValid dbStorage hf timeout now sessionKey rows).1
        = .error .validSessionNotFound →
      Ev.info Domain.SessionDoesNotExist [("session_hash", hf sessionKey)]
        ∈ (SessionSvc.getSessionIfValid dbStorage hf timeout now sessionKey rows).2.2) ∧
    (∀ e ∈ (SessionSvc.getSessionIfValid dbStorage hf timeout now sessionKey rows).2.2,
      hasFieldValue sessionKey e = false) ∧
    ((SessionSvc.userDidLogout dbStorage hf now sessionKey rows).1 = .ok () →
      Ev.info Domain.SessionDestroyed [("session_hash", hf sessionKey)]
        ∈ (SessionSvc.userDidLogout dbStorage hf now sessionKey rows).2.2) ∧
    (∀ e ∈ (SessionSvc.userDidLogout dbStorage hf now sessionKey rows).2.2,
      hasFieldValue sessionKey e = false) := by
  have h1 := auth_field_values hf timeout now sessionKey accountID rows
  refine ⟨?_, ?_, ?_, ?_, ?_, ?_, ?_, ?_, ?_⟩
  · intro e he
    constructor
    · have hnot : ¬ hasFieldValue sessionKey e = true := by
        intro hv
        obtain ⟨p, hp, hpv⟩ := (hasFieldValue_eq_true_iff _ _).mp hv
        rcases h1 e he p hp with hA | ⟨s, hs⟩
        · rw [hA] at hpv
          exact hacct1 hpv
        · rw [hs] at hpv
          exact hkey s hpv
      simpa using hnot
    · intro r hr
      have hnot : ¬ hasFieldValue r.sessionKey e = true := by
        intro hv
        obtain ⟨p, hp, hpv⟩ := (hasFieldValue_eq_true_iff _ _).mp hv
        rcases h1 e he p hp with hA | ⟨s, hs⟩
        · rw [hA] at hpv
          exact hacct2 r hr hpv
        · rw [hs] at hpv
          exact hold s r hr hpv
      simpa using hnot
  · intro hres
    cases hfind : rows.find? (fun r => r.accountID == accountID) with
    | none =>
      by_cases hconf : ∃ x ∈ rows, x.sessionKey = sessionKey ∨ x.accountID = accountID
      · obtain ⟨hr1, _⟩ := auth_run_none_conflict hf timeout now sessionKey accountID
          rows hfind hconf
        rw [hr1] at hres
        cases hres
      · rw [auth_trace_none_ok hf timeout now sessionKey accountID rows hfind hconf]
        simp
    | some extant =>
      by_cases hconf : ∃ x ∈ rows.filter (fun r => r.sessionKey != extant.sessionKey),
          x.sessionKey = sessionKey ∨ x.accountID = accountID
      · obtain ⟨hr1, _⟩ := auth_run_some_conflict hf timeout now sessionKey accountID
          rows extant hfind hconf
        rw [hr1] at hres
        cases hres
      · by_cases hx : extant.expirationDate < now
        · rw [auth_trace_expired_ok hf timeout now sessionKey accountID rows extant
            hfind hx hconf]
          simp
        · rw [auth_trace_valid_ok hf timeout now sessionKey accountID rows extant
            hfind hx hconf]
          simp
  · intro extant hfind hx
    by_cases hconf : ∃ x ∈ rows.filter (fun r => r.sessionKey != extant.sessionKey),
        x.sessionKey = sessionKey ∨ x.accountID = accountID
    · rw [auth_trace_expired_conflict hf timeout now sessionKey accountID rows extant
        hfind hx hconf]
      simp
    · rw [auth_trace_expired_ok hf timeout now sessionKey accountID rows extant
        hfind hx hconf]
      simp
  · intro extant hfind hx
    by_cases hconf : ∃ x ∈ rows.filter (fun r => r.sessionKey != extant.sessionKey),
        x.sessionKey = sessionKey ∨ x.accountID = accountID
    · rw [auth_trace_valid_conflict hf timeout now sessionKey accountID rows extant
        hfind hx hconf]
      simp
    · rw [auth_trace_valid_ok hf timeout now sessionKey accountID rows extant
        hfind hx hconf]
      simp
  · unfold SessionSvc.getSessionIfValid
    cases hr : (DBStore.extendAndFetchSession now sessionKey timeout rows).1 with
    | ok s => simp [dbStorage, hr]
    | error e =>
      by_cases he1 : e = GoErr.sessionExpired
      · subst he1
        simp [dbStorage, hr]
      · by_cases he2 : e = GoErr.validSessionNotFound
        · subst he2
          simp [dbStorage, hr, he1]
        · simp [dbStorage, hr, he1, he2]
  · unfold SessionSvc.getSessionIfValid
    cases hr : (DBStore.extendAndFetchSession now sessionKey timeout rows).1 with
    | ok s => simp [dbStorage, hr]
    | error e =>
      by_cases he1 : e = GoErr.sessionExpired
      · subst he1
        simp [dbStorage, hr]
      · by_cases he2 : e = GoErr.validSessionNotFound
        · subst he2
          simp [dbStorage, hr, he1]
        · simp [dbStorage, hr, he1, he2]
  · unfold SessionSvc.getSessionIfValid
    cases hr : (DBStore.extendAndFetchSession now sessionKey timeout rows).1 with
    | ok s => simp [dbStorage, hr, hasFieldValue, evFields]
    | error e =>
      by_cases he1 : e = GoErr.sessionExpired
      · subst he1
        simp [dbStorage, hr, hasFieldValue, evFields, hkey sessionKey]
      · by_cases he2 : e = GoErr.validSessionNotFound
        · subst he2
          simp [dbStorage, hr, he1, hasFieldValue, evFields, hkey sessionKey]
        · simp [dbStorage, hr, he1, he2, hasFieldValue, evFields]
  · unfold SessionSvc.userDidLogout
    cases hd : (DBStore.deleteSession now sessionKey rows).1 with
    | ok u => simp [dbStorage, hd]
    | error e => simp [dbStorage, hd]
  · unfold SessionSvc.userDidLogout
    cases hd : (DBStore.deleteSession now sessionKey rows).1 with
    | ok u => simp [dbStorage, hd, hasFieldValue, evFields, hkey sessionKey]
    | error e => simp [dbStorage, hd, hasFieldValue, evFields]

/-- Claim C9 witness: the amended theorem at a concrete store with an
expired old session, a constant hash function and distinct identifiers:
the previous-session-expired event with only the account id is emitted. -/
theorem logged_fields_hashed_key_only_witness :
    Ev.info (Domain.prevExpiredMsg (-1)) [("account_id", "A")]
      ∈ (SessionSvc.userDidAuthenticate dbStorage (fun _ => "HASH") 5 0 "k1" "A"
          [⟨"A", "oldkey", -1⟩]).2.2 :=
  (logged_fields_hashed_key_only (fun _ => "HASH") 5 0 "k1" "A" [⟨"A", "oldkey", -1⟩]
    (fun _ => by simp) (fun s r hr => by
      simp only [List.mem_singleton] at hr
      subst hr
      simp)
    (by decide) (fun r hr => by
      simp only [List.mem_singleton] at hr
      subst hr
      simp)).2.2.1 ⟨"A", "oldkey", -1⟩ rfl (by decide)

/-- Claim C8 witness: the amended theorem applied to the concrete validator
that reports an expired session. -/
theorem middleware_uniform_status_distinct_message_witness :
    (Seshttp.middleware (fun _ => .error .sessionExpired) (some "k")).1
      = .respond Domain.SessionExpired 401 :=
  (middleware_uniform_status_distinct_message (fun _ => .error .sessionExpired) "k").2.1 rfl
